import Mathlib

/-!
Shallow embedding of the SMO-based support vector classifier trainer
(src/svm/svc.rs) over the rationals.  Machine floats are modelled by the
field of rationals; the f64 MAX and MIN sentinels used by the gradient
extreme scan are modelled by explicit large constants.  Feature vectors
are lists of rationals and a kernel is an arbitrary binary function on
them (the solver never inspects which kernel variant is in use).
-/

namespace SvcSpec

/-- A kernel: a binary similarity function on feature vectors. -/
abbrev Kern := List ℚ → List ℚ → ℚ

/-- Dot product, the linear kernel, used for concrete evaluations. -/
def linearKernel (a b : List ℚ) : ℚ :=
  (a.zip b).foldl (fun s p => s + p.1 * p.2) 0

/-- Model of T::max_value() for the f64 instantiation. -/
def maxValue : ℚ := 10 ^ 308

/-- Model of T::min_value() for the f64 instantiation. -/
def minValue : ℚ := -maxValue

/-- Per-sample dual optimization state (struct SupportVector). -/
structure SupportVector where
  index : Nat
  x : List ℚ
  alpha : ℚ
  grad : ℚ
  cmin : ℚ
  cmax : ℚ
  k : ℚ
deriving DecidableEq, Inhabited, Repr

/-- SupportVector::new: self-similarity computed once, bounds from the
label sign, alpha initialized to zero. -/
def SupportVector.new (K : Kern) (i : Nat) (x : List ℚ) (y g c : ℚ) : SupportVector :=
  { index := i
    x := x
    grad := g
    k := K x x
    alpha := 0
    cmin := if y > 0 then 0 else -c
    cmax := if y > 0 then c else 0 }

/-- The kernel memoization cache: a map from ordered index pairs to
scalars, modelled as an association list with no duplicate keys. -/
structure Cache where
  data : List ((Nat × Nat) × ℚ)
deriving DecidableEq, Repr

/-- Map lookup (HashMap::get). -/
def Cache.find (c : Cache) (key : Nat × Nat) : Option ℚ :=
  (c.data.find? (fun p => p.1 == key)).map Prod.snd

/-- Map insert (HashMap::insert overwrites any previous binding). -/
def Cache.insert (c : Cache) (key : Nat × Nat) (v : ℚ) : Cache :=
  ⟨(key, v) :: c.data.filter (fun p => !(p.1 == key))⟩

/-- Cache::get: memoized kernel evaluation keyed by the two sample
indices, computing and storing on first access. -/
def Cache.get (K : Kern) (c : Cache) (i j : SupportVector) : ℚ × Cache :=
  match c.find (i.index, j.index) with
  | some v => (v, c)
  | none =>
    let v := K i.x j.x
    (v, c.insert (i.index, j.index) v)

/-- Cache::drop: retain exactly the entries whose first key component is
not in the given index set. -/
def Cache.dropIdxs (c : Cache) (idxs : List Nat) : Cache :=
  ⟨c.data.filter (fun p => !(idxs.contains p.1.1))⟩

/-- Hyperparameters (struct SVCParameters). -/
structure SVCParams where
  epoch : Nat
  c : ℚ
  tol : ℚ
deriving DecidableEq, Repr

/-- Mutable optimizer state (struct Optimizer): active set, extreme
gradients with their positions, curvature regularizer tau, and the lazy
recomputation flag. -/
structure Optimizer where
  params : SVCParams
  svmin : Nat
  svmax : Nat
  gmin : ℚ
  gmax : ℚ
  tau : ℚ
  sv : List SupportVector
  recalculate_minmax_grad : Bool
deriving DecidableEq, Repr

/-- One scan step of find_min_max_gradient over the indexed active set. -/
def fmmStep (acc : Nat × Nat × ℚ × ℚ) (iv : Nat × SupportVector) : Nat × Nat × ℚ × ℚ :=
  let svmin := acc.1
  let svmax := acc.2.1
  let gmin := acc.2.2.1
  let gmax := acc.2.2.2
  let i := iv.1
  let v := iv.2
  let p1 : Nat × ℚ := if v.grad < gmin ∧ v.alpha > v.cmin then (i, v.grad) else (svmin, gmin)
  let p2 : Nat × ℚ := if v.grad > gmax ∧ v.alpha < v.cmax then (i, v.grad) else (svmax, gmax)
  (p1.1, p2.1, p1.2, p2.2)

/-- Optimizer::find_min_max_gradient: lazy recomputation of the extreme
gradients; a no-op unless the recalculate flag is set. -/
def findMinMaxGradient (st : Optimizer) : Optimizer :=
  if st.recalculate_minmax_grad then
    let r := st.sv.enum.foldl fmmStep (st.svmin, st.svmax, maxValue, minValue)
    { st with
      svmin := r.1
      svmax := r.2.1
      gmin := r.2.2.1
      gmax := r.2.2.2
      recalculate_minmax_grad := false }
  else st

/-- In-place modification of the active-set element at a position
(out-of-range positions leave the list unchanged). -/
def modifySV : List SupportVector → Nat → (SupportVector → SupportVector) → List SupportVector
  | [], _, _ => []
  | v :: rest, 0, f => f v :: rest
  | v :: rest, n + 1, f => v :: modifySV rest n f

/-- The gradient maintenance loop of Optimizer::update: for every active
position, fetch the two kernel values through the cache and shift the
gradient by -step * (k2 - k1). -/
def updateGrads (K : Kern) (v1 v2 : Nat) (step : ℚ) :
    List Nat → List SupportVector → Cache → List SupportVector × Cache
  | [], sv, cache => (sv, cache)
  | i :: rest, sv, cache =>
    let r2 := Cache.get K cache (sv.getD v2 default) (sv.getD i default)
    let r1 := Cache.get K r2.2 (sv.getD v1 default) (sv.getD i default)
    let sv := modifySV sv i (fun v => { v with grad := v.grad - step * (r2.1 - r1.1) })
    updateGrads K v1 v2 step rest sv r1.2

/-- Optimizer::update: shift the paired alphas by -step and +step,
maintain every gradient incrementally, mark the extremes dirty and
immediately recompute them. -/
def update (K : Kern) (v1 v2 : Nat) (step : ℚ) (st : Optimizer) (cache : Cache) :
    Optimizer × Cache :=
  let sv := modifySV st.sv v1 (fun v => { v with alpha := v.alpha - step })
  let sv := modifySV sv v2 (fun v => { v with alpha := v.alpha + step })
  let r := updateGrads K v1 v2 step (List.range sv.length) sv cache
  let st := findMinMaxGradient { st with sv := r.1, recalculate_minmax_grad := true }
  (st, r.2)

/-- Search accumulator for the second-order partner search in smo. -/
structure SearchAcc where
  best : ℚ
  found : Option (Nat × ℚ)
  cache : Cache

/-- One candidate test of the idx2-search (smo mode with idx1 fixed):
z = v.grad - idx1.grad, tau-regularized curvature, direction test
against the box bound, keep the candidate of maximal gain z * mu. -/
def searchStep2 (K : Kern) (sv1 : SupportVector) (tau : ℚ) (acc : SearchAcc)
    (iv : Nat × SupportVector) : SearchAcc :=
  let i := iv.1
  let v := iv.2
  let z := v.grad - sv1.grad
  let r := Cache.get K acc.cache sv1 v
  let curv0 := sv1.k + v.k - 2 * r.1
  let curv := if curv0 ≤ 0 then tau else curv0
  let mu := z / curv
  if (mu > 0 ∧ v.alpha < v.cmax) ∨ (mu < 0 ∧ v.alpha > v.cmin) then
    let gain := z * mu
    if gain > acc.best then ⟨gain, some (i, r.1), r.2⟩ else ⟨acc.best, acc.found, r.2⟩
  else ⟨acc.best, acc.found, r.2⟩

/-- The idx2-search of smo: best feasible positive-gain partner for the
fixed first vector. -/
def searchPartner2 (K : Kern) (st : Optimizer) (cache : Cache) (i1 : Nat) :
    Option (Nat × ℚ) × Cache :=
  let sv1 := st.sv.getD i1 default
  let r := st.sv.enum.foldl (searchStep2 K sv1 st.tau) ⟨0, none, cache⟩
  (r.found, r.cache)

/-- One candidate test of the idx1-search (smo mode with idx2 fixed):
z = idx2.grad - v.grad, with the symmetric box-direction test. -/
def searchStep1 (K : Kern) (sv2 : SupportVector) (tau : ℚ) (acc : SearchAcc)
    (iv : Nat × SupportVector) : SearchAcc :=
  let i := iv.1
  let v := iv.2
  let z := sv2.grad - v.grad
  let r := Cache.get K acc.cache sv2 v
  let curv0 := sv2.k + v.k - 2 * r.1
  let curv := if curv0 ≤ 0 then tau else curv0
  let mu := z / curv
  if (mu > 0 ∧ v.alpha > v.cmin) ∨ (mu < 0 ∧ v.alpha < v.cmax) then
    let gain := z * mu
    if gain > acc.best then ⟨gain, some (i, r.1), r.2⟩ else ⟨acc.best, acc.found, r.2⟩
  else ⟨acc.best, acc.found, r.2⟩

/-- The idx1-search of smo: best feasible positive-gain partner for the
fixed second vector. -/
def searchPartner1 (K : Kern) (st : Optimizer) (cache : Cache) (i2 : Nat) :
    Option (Nat × ℚ) × Cache :=
  let sv2 := st.sv.getD i2 default
  let r := st.sv.enum.foldl (searchStep1 K sv2 st.tau) ⟨0, none, cache⟩
  (r.found, r.cache)

/-- The four-way clamp of the unclamped smo step: for a non-negative
step, the distance of idx1 above its lower bound and of idx2 below its
upper bound; the symmetric pair for a negative step. -/
def clampStep (sv1 sv2 : SupportVector) (step0 : ℚ) : ℚ :=
  if step0 ≥ 0 then
    let s := if sv1.alpha - sv1.cmin < step0 then sv1.alpha - sv1.cmin else step0
    if sv2.cmax - sv2.alpha < s then sv2.cmax - sv2.alpha else s
  else
    let s := if sv2.cmin - sv2.alpha > step0 then sv2.cmin - sv2.alpha else step0
    if sv1.alpha - sv1.cmax > s then sv1.alpha - sv1.cmax else s

/-- The tail of smo once both indices are resolved: true pair curvature
(tau-regularized), clamped step, update, and the post-update gap test
against tol. -/
def smoStepPair (K : Kern) (tol : ℚ) (i1 i2 : Nat) (kv : Option ℚ) (st : Optimizer)
    (cache : Cache) : (Optimizer × Cache) × Bool :=
  let k12 := match kv with
    | some k => k
    | none => K (st.sv.getD i1 default).x (st.sv.getD i2 default).x
  let sv1 := st.sv.getD i1 default
  let sv2 := st.sv.getD i2 default
  let curv0 := sv1.k + sv2.k - 2 * k12
  let curv := if curv0 ≤ 0 then st.tau else curv0
  let step := clampStep sv1 sv2 ((sv2.grad - sv1.grad) / curv)
  let r := update K i1 i2 step st cache
  ((r.1, r.2), r.1.gmax - r.1.gmin > tol)

/-- Optimizer::smo: resolve unspecified working-pair indices (recompute
extremes and fix the side of larger violation when both are missing,
then run the directed partner search), then clamp and apply the pair
update; returns whether the post-update gap still exceeds tol. -/
def smo (K : Kern) (idx1 idx2 : Option Nat) (tol : ℚ) (st : Optimizer) (cache : Cache) :
    (Optimizer × Cache) × Bool :=
  let t : Optimizer × Option Nat × Option Nat :=
    match idx1, idx2 with
    | none, none =>
      let st := findMinMaxGradient st
      if st.gmax > -st.gmin then (st, none, some st.svmax) else (st, some st.svmin, none)
    | a, b => (st, a, b)
  match t with
  | (st, some i1, some i2) => smoStepPair K tol i1 i2 none st cache
  | (st, some i1, none) =>
    let r := searchPartner2 K st cache i1
    match r.1 with
    | some p => smoStepPair K tol i1 p.1 (some p.2) st r.2
    | none => ((st, r.2), false)
  | (st, none, some i2) =>
    let r := searchPartner1 K st cache i2
    match r.1 with
    | some p => smoStepPair K tol p.1 i2 (some p.2) st r.2
    | none => ((st, r.2), false)
  | (st, none, none) => ((st, cache), false)

/-- Candidate gradient of a new sample: label minus the alpha-weighted
kernel sum over the current active set. -/
def candidateGrad (K : Kern) (sv : List SupportVector) (x : List ℚ) (y : ℚ) : ℚ :=
  sv.foldl (fun g v => g - v.alpha * K v.x x) y

/-- The kernel values computed while evaluating the candidate gradient,
keyed with the new sample index first. -/
def processCacheValues (K : Kern) (sv : List SupportVector) (i : Nat) (x : List ℚ) :
    List ((Nat × Nat) × ℚ) :=
  sv.map (fun v => ((i, v.index), K v.x x))

/-- Bulk cache pre-population of the values memoized by process. -/
def insertAll (cache : Cache) : List ((Nat × Nat) × ℚ) → Cache
  | [] => cache
  | kv :: rest => insertAll (cache.insert kv.1 kv.2) rest

/-- The admission gate of process: with recomputed extremes well-ordered,
a positive sample whose gradient is below gmin or a negative sample
whose gradient is above gmax is rejected. -/
def gateRejects (K : Kern) (x : List ℚ) (y : ℚ) (st : Optimizer) : Prop :=
  let st1 := findMinMaxGradient st
  let g := candidateGrad K st.sv x y
  st1.gmin < st1.gmax ∧ ((y > 0 ∧ g < st1.gmin) ∨ (y < 0 ∧ g > st1.gmax))

instance (K : Kern) (x : List ℚ) (y : ℚ) (st : Optimizer) :
    Decidable (gateRejects K x y st) := by
  unfold gateRejects
  exact inferInstance

/-- The state right after process inserts the admitted sample at the
front of the active set. -/
def admitState (K : Kern) (i : Nat) (x : List ℚ) (y : ℚ) (st : Optimizer) : Optimizer :=
  let st1 := findMinMaxGradient st
  { st1 with
    sv := SupportVector.new K i x y (candidateGrad K st.sv x y) st.params.c :: st1.sv }

/-- Optimizer::process: duplicate-index early return, candidate gradient,
admission gate, cache pre-population, insertion at the front, and one
directed smo attempt (new vector in the second slot when the label is
positive, the first slot when negative). -/
def process (K : Kern) (i : Nat) (x : List ℚ) (y : ℚ) (st : Optimizer) (cache : Cache) :
    (Optimizer × Cache) × Bool :=
  if st.sv.any (fun v => v.index == i) then ((st, cache), true)
  else if gateRejects K x y st then ((findMinMaxGradient st, cache), false)
  else
    let cache := insertAll cache (processCacheValues K st.sv i x)
    let st := admitState K i x y st
    let r := if y > 0 then smo K none (some 0) 0 st cache else smo K (some 0) none 0 st cache
    ((r.1.1, r.1.2), true)

/-- The eviction test of Optimizer::clean: zero alpha with the gradient
on the side that cannot re-enter optimization under the extremes. -/
def cleanCond (gmin gmax : ℚ) (v : SupportVector) : Bool :=
  (v.alpha == 0) &&
    ((decide (v.grad ≥ gmax) && decide ((0 : ℚ) ≥ v.cmax)) ||
     (decide (v.grad ≤ gmin) && decide ((0 : ℚ) ≤ v.cmin)))

/-- Optimizer::clean: recompute the extremes, evict the bound
non-informative vectors, purge their cache entries (first key component
only) and mark the extremes dirty. -/
def clean (st : Optimizer) (cache : Cache) : Optimizer × Cache :=
  let st := findMinMaxGradient st
  let dropped := st.sv.filter (fun v => cleanCond st.gmin st.gmax v)
  let kept := st.sv.filter (fun v => !cleanCond st.gmin st.gmax v)
  let cache := cache.dropIdxs (dropped.map (fun v => v.index))
  ({ st with sv := kept, recalculate_minmax_grad := true }, cache)

/-- Optimizer::reprocess: one fully unspecified smo step followed by
clean, forwarding the smo status. -/
def reprocess (K : Kern) (tol : ℚ) (st : Optimizer) (cache : Cache) :
    (Optimizer × Cache) × Bool :=
  let r := smo K none none tol st cache
  let c := clean r.1.1 r.1.2
  ((c.1, c.2), r.2)

/-- The capped drain loop of Optimizer::finish: repeat the smo step
while it reports the gap above tolerance, decrementing the fuel counter;
returns the final state together with the number of executed loop-body
iterations and the last smo report. -/
def finishLoop (K : Kern) (tol : ℚ) : Nat → Optimizer → Cache → (Optimizer × Cache) × Nat × Bool
  | fuel, st, cache =>
    let r := smo K none none tol st cache
    if r.2 then
      match fuel with
      | 0 => (r.1, 0, true)
      | f + 1 =>
        let q := finishLoop K tol f r.1.1 r.1.2
        (q.1, q.2.1 + 1, q.2.2)
    else (r.1, 0, false)

/-- Optimizer::finish: drain with the iteration cap set to the size of
the active set at entry, then clean once. -/
def finish (K : Kern) (st : Optimizer) (cache : Cache) : Optimizer × Cache :=
  let r := finishLoop K st.params.tol st.sv.length st cache
  clean r.1.1 r.1.2

/-- Modelled from the spec: the drain loop exactly as the spec's words
describe finish -- "repeatedly calls reprocess until it reports no
further exceedance of tolerance, bounded by a safety iteration cap equal
to the current active-set size" -- kept beside the source's finish so the
two can be compared. -/
def finishSpecLoop (K : Kern) (tol : ℚ) : Nat → Optimizer → Cache → Optimizer × Cache
  | fuel, st, cache =>
    let r := reprocess K tol st cache
    if r.2 then
      match fuel with
      | 0 => r.1
      | f + 1 => finishSpecLoop K tol f r.1.1 r.1.2
    else r.1

/-- Modelled from the spec: finish as iterated reprocess, the iteration
cap taken from the active-set size at entry. -/
def finishSpec (K : Kern) (st : Optimizer) (cache : Cache) : Optimizer × Cache :=
  finishSpecLoop K st.params.tol st.sv.length st cache

/-- The error type of fit.  Modelled from the spec: the struct Failed of
crate::error is not under src/; the spec describes a single fit-failure
kind wrapping a message. -/
structure Failed where
  message : String
deriving DecidableEq, Repr

/-- Failed::fit, modelled from the spec as the fit-failure constructor. -/
def Failed.fit (msg : String) : Failed := ⟨msg⟩

/-- The exact message string built by SVC::fit on a shape mismatch. -/
def fitErrorMessage : String := "Number of rows of X doesn't match number of rows of Y"

/-- The shape guard at the top of SVC::fit: reject when the number of
feature rows differs from the number of labels. -/
def fitShapeGuard (n ylen : Nat) : Except Failed Unit :=
  if n ≠ ylen then Except.error (Failed.fit fitErrorMessage) else Except.ok ()

/-- The trained model (struct SVC): retained instances, weights, bias. -/
structure SVC where
  instances : List (List ℚ)
  w : List ℚ
  b : ℚ
deriving DecidableEq, Repr

/-- SVC::predict_for_row: accumulate f = b + sum of w_i * K(x, inst_i)
by the indexed loop of the source, then the sign decision. -/
def predictForRow (K : Kern) (m : SVC) (x : List ℚ) : ℚ :=
  let f := (List.range m.instances.length).foldl
    (fun f i => f + m.w.getD i 0 * K x (m.instances.getD i [])) m.b
  if f > 0 then 1 else -1

/-- The decision function as the spec writes it: bias plus the weighted
kernel sum over the retained instances. -/
def decisionF (K : Kern) (m : SVC) (x : List ℚ) : ℚ :=
  m.b + ((m.w.zip m.instances).map (fun p => p.1 * K x p.2)).sum

/-- SVC::predict: a zero vector of one entry per input row, each entry
set to the row prediction; always returns Ok. -/
def predictSVC (K : Kern) (m : SVC) (xs : List (List ℚ)) : Except Failed (List ℚ) :=
  Except.ok ((List.range xs.length).foldl
    (fun acc i => acc.set i (predictForRow K m (xs.getD i []))) (List.replicate xs.length 0))

/-- The empty cache. -/
def cache0 : Cache := ⟨[]⟩

/-- Hyperparameters used by the concrete evaluations. -/
def params0 : SVCParams := ⟨2, 200, 1 / 5⟩

/-- The tau constant of Optimizer::new (1e-12). -/
def tau0 : ℚ := 1 / 1000000000000

/-- A positively labelled support vector at alpha zero. -/
def svPosA : SupportVector := ⟨1, [1], 0, 1 / 10, 0, 200, 1⟩

/-- A negatively labelled support vector at alpha zero. -/
def svNegA : SupportVector := ⟨0, [0], 0, 1 / 20, -200, 0, 0⟩

/-- A converged optimizer state: extremes current, gap 1/20 below the
tolerance 1/5. -/
def stConv : Optimizer := ⟨params0, 1, 0, 1 / 20, 1 / 10, tau0, [svPosA, svNegA], false⟩

/-- A state whose active set already holds sample index 3. -/
def stDup : Optimizer := ⟨params0, 0, 0, 0, 0, tau0, [⟨3, [1], 0, 0, 0, 200, 1⟩], true⟩

/-- A state with stale stored extremes and the recalculate flag set. -/
def stDirty : Optimizer := ⟨params0, 0, 0, 123, -7, tau0, [⟨0, [1], 0, -5, -200, 0, 1⟩], true⟩

/-- A state with an empty active set and current extremes. -/
def stEmptyO : Optimizer := ⟨params0, 0, 0, 0, 0, tau0, [], false⟩

/-- A one-instance trained model. -/
def mdl1 : SVC := ⟨[[1]], [2], 0⟩

/-- A four-vector state (extremes current) on which the source's finish
and the spec's iterated-reprocess drain produce different final active
sets: the zero-alpha vector of index 3 is evicted by an interleaved
clean but survives the smo-only loop. -/
def stFin : Optimizer :=
  ⟨⟨2, 200, 2⟩, 0, 1, -5, 0, 1,
   [⟨0, [1], 200, -5, 0, 200, 1⟩,
    ⟨1, [2], 0, 0, 0, 200, 4⟩,
    ⟨2, [3], -10, -5, -200, 0, 9⟩,
    ⟨3, [3], 0, 0, -200, 0, 9⟩], false⟩

/-- The box-constraint invariant for one vector. -/
def inBox (v : SupportVector) : Prop := v.cmin ≤ v.alpha ∧ v.alpha ≤ v.cmax

/-- The box-constraint invariant over an active set. -/
def boxInv (sv : List SupportVector) : Prop := ∀ v ∈ sv, inBox v

instance (v : SupportVector) : Decidable (inBox v) := by
  unfold inBox
  exact inferInstance

instance (sv : List SupportVector) : Decidable (boxInv sv) := by
  unfold boxInv
  exact inferInstance

theorem fit_shape_mismatch_error (n ylen : Nat) (h : n ≠ ylen) :
    fitShapeGuard n ylen = Except.error (Failed.fit fitErrorMessage) := by
  unfold fitShapeGuard
  simp [h]

theorem fit_shape_mismatch_error_witness :
    (3 : Nat) ≠ 2 ∧ fitShapeGuard 3 2 = Except.error (Failed.fit fitErrorMessage) :=
  ⟨by decide, fit_shape_mismatch_error 3 2 (by decide)⟩

/-- The fit-failure message is one fixed digit-free string, identical for
different row and label counts, so it cannot include the two counts. -/
theorem fit_message_no_counts_cex :
    fitShapeGuard 3 2 = fitShapeGuard 100 7 ∧
    fitShapeGuard 3 2 = Except.error (Failed.fit fitErrorMessage) ∧
    fitErrorMessage.data.all (fun ch => !ch.isDigit) = true :=
  ⟨rfl, rfl, by decide⟩

theorem process_duplicate_returns_true (K : Kern) (i : Nat) (x : List ℚ) (y : ℚ)
    (st : Optimizer) (cache : Cache) (h : ∃ v ∈ st.sv, v.index = i) :
    process K i x y st cache = ((st, cache), true) := by
  have ha : st.sv.any (fun v => v.index == i) = true := by
    rcases h with ⟨v, hv, hvi⟩
    exact List.any_eq_true.mpr ⟨v, hv, by simp [hvi]⟩
  unfold process
  simp [ha]

theorem process_duplicate_returns_true_witness :
    (∃ v ∈ stDup.sv, v.index = 3) ∧
    process linearKernel 3 [2] 1 stDup cache0 = ((stDup, cache0), true) :=
  ⟨by decide, process_duplicate_returns_true linearKernel 3 [2] 1 stDup cache0 (by decide)⟩

/-- On an already-active index, process returns true, not false. -/
theorem process_duplicate_cex :
    (process linearKernel 3 [2] 1 stDup cache0).2 ≠ false := by
  decide

theorem cache_drop_first_component (c : Cache) (idxs : List Nat) (a b : Nat) :
    (c.dropIdxs idxs).find (a, b) = if a ∈ idxs then none else c.find (a, b) := by
  obtain ⟨data⟩ := c
  unfold Cache.dropIdxs Cache.find
  simp only
  induction data with
  | nil => by_cases h : a ∈ idxs <;> simp [h]
  | cons p t ih =>
    rw [List.filter_cons]
    have hcont : idxs.contains p.1.1 = decide (p.1.1 ∈ idxs) := List.elem_eq_mem p.1.1 idxs
    by_cases hmem : p.1.1 ∈ idxs
    · have hkeep : (!idxs.contains p.1.1) = false := by rw [hcont]; simp [hmem]
      rw [hkeep]
      simp only [Bool.false_eq_true, if_false]
      by_cases hp : p.1 = (a, b)
      · have ha : a ∈ idxs := by
          have hfst : p.1.1 = a := by rw [hp]
          rw [← hfst]
          exact hmem
        rw [ih]
        simp [ha]
      · rw [ih, List.find?_cons_of_neg _ (by simp [hp])]
    · have hkeep : (!idxs.contains p.1.1) = true := by rw [hcont]; simp [hmem]
      rw [hkeep, if_pos rfl]
      by_cases hp : p.1 = (a, b)
      · have ha : a ∉ idxs := by
          have hfst : p.1.1 = a := by rw [hp]
          rw [← hfst]
          exact hmem
        rw [List.find?_cons_of_pos _ (by simp [hp]), List.find?_cons_of_pos _ (by simp [hp])]
        simp [ha]
      · rw [List.find?_cons_of_neg _ (by simp [hp]), List.find?_cons_of_neg _ (by simp [hp])]
        exact ih

theorem foldl_set_length (f : Nat → ℚ) :
    ∀ (l : List Nat) (acc : List ℚ),
      (l.foldl (fun acc i => acc.set i (f i)) acc).length = acc.length := by
  intro l
  induction l with
  | nil => intro acc; rfl
  | cons i t ih => intro acc; simp [List.foldl_cons, ih, List.length_set]

theorem predict_always_ok (K : Kern) (m : SVC) (xs : List (List ℚ)) :
    ∃ ys : List ℚ, predictSVC K m xs = Except.ok ys ∧ ys.length = xs.length := by
  refine ⟨_, rfl, ?_⟩
  rw [foldl_set_length]
  simp

theorem foldl_add_map {α : Type} (g : α → ℚ) :
    ∀ (l : List α) (b : ℚ), l.foldl (fun f p => f + g p) b = b + (l.map g).sum := by
  intro l
  induction l with
  | nil => intro b; simp
  | cons p t ih =>
    intro b
    simp only [List.foldl_cons, List.map_cons, List.sum_cons, ih]
    ring

theorem range_fold_eq_zip_fold (K : Kern) (x : List ℚ) :
    ∀ (inst : List (List ℚ)) (w : List ℚ), w.length = inst.length → ∀ b : ℚ,
      (List.range inst.length).foldl (fun f i => f + w.getD i 0 * K x (inst.getD i [])) b
        = (w.zip inst).foldl (fun f p => f + p.1 * K x p.2) b := by
  intro inst
  induction inst with
  | nil =>
    intro w hw b
    have : w = [] := List.length_eq_zero.mp hw
    subst this
    simp
  | cons a rest ih =>
    intro w hw b
    cases w with
    | nil => simp at hw
    | cons c wrest =>
      simp only [List.length_cons]
      rw [List.range_succ_eq_map]
      simp only [List.foldl_cons, List.foldl_map, List.getD_cons_zero, List.getD_cons_succ,
        List.zip_cons_cons]
      exact ih wrest (by simpa using hw) (b + c * K x a)

theorem predict_for_row_sign (K : Kern) (m : SVC) (x : List ℚ)
    (hw : m.w.length = m.instances.length) :
    (predictForRow K m x = if decisionF K m x > 0 then 1 else -1) ∧
    (decisionF K m x = 0 → predictForRow K m x = -1) := by
  have hf : (List.range m.instances.length).foldl
      (fun f i => f + m.w.getD i 0 * K x (m.instances.getD i [])) m.b = decisionF K m x := by
    rw [range_fold_eq_zip_fold K x m.instances m.w hw m.b]
    unfold decisionF
    exact foldl_add_map _ _ _
  constructor
  · unfold predictForRow
    rw [hf]
  · intro h0
    unfold predictForRow
    rw [hf, h0]
    norm_num

theorem findMinMaxGradient_sv (st : Optimizer) : (findMinMaxGradient st).sv = st.sv := by
  unfold findMinMaxGradient
  split <;> rfl

theorem findMinMaxGradient_flag_false (st : Optimizer)
    (h : st.recalculate_minmax_grad = false) : findMinMaxGradient st = st := by
  unfold findMinMaxGradient
  simp [h]

theorem modifySV_length (f : SupportVector → SupportVector) :
    ∀ (sv : List SupportVector) (i : Nat), (modifySV sv i f).length = sv.length := by
  intro sv
  induction sv with
  | nil => intro i; rfl
  | cons v rest ih =>
    intro i
    cases i with
    | zero => rfl
    | succ n => simp [modifySV, ih]

theorem mem_modifySV (f : SupportVector → SupportVector) :
    ∀ (sv : List SupportVector) (i : Nat) (w : SupportVector), w ∈ modifySV sv i f →
      w ∈ sv ∨ (i < sv.length ∧ w = f (sv.getD i default)) := by
  intro sv
  induction sv with
  | nil => intro i w hw; cases hw
  | cons v rest ih =>
    intro i w hw
    cases i with
    | zero =>
      rcases List.mem_cons.mp hw with h | h
      · right
        exact ⟨Nat.succ_pos _, by simpa using h⟩
      · left
        exact List.mem_cons_of_mem _ h
    | succ n =>
      rcases List.mem_cons.mp hw with h | h
      · left
        exact h ▸ List.mem_cons_self _ _
      · rcases ih n w h with h2 | ⟨hlt, heq⟩
        · left
          exact List.mem_cons_of_mem _ h2
        · right
          exact ⟨Nat.succ_lt_succ hlt, by simpa using heq⟩

theorem modifySV_getD_self (f : SupportVector → SupportVector) :
    ∀ (sv : List SupportVector) (i : Nat), i < sv.length →
      (modifySV sv i f).getD i default = f (sv.getD i default) := by
  intro sv
  induction sv with
  | nil => intro i h; exact absurd h (Nat.not_lt_zero i)
  | cons v rest ih =>
    intro i h
    cases i with
    | zero => rfl
    | succ n => simpa [modifySV] using ih n (Nat.lt_of_succ_lt_succ h)

theorem modifySV_getD_ne (f : SupportVector → SupportVector) :
    ∀ (sv : List SupportVector) (i j : Nat), i ≠ j →
      (modifySV sv j f).getD i default = sv.getD i default := by
  intro sv
  induction sv with
  | nil => intro i j h; rfl
  | cons v rest ih =>
    intro i j h
    cases j with
    | zero =>
      cases i with
      | zero => exact absurd rfl h
      | succ m => rfl
    | succ n =>
      cases i with
      | zero => rfl
      | succ m => simpa [modifySV] using ih m n (fun he => h (by rw [he]))

theorem getD_mem_of_lt : ∀ (l : List SupportVector) (i : Nat), i < l.length →
    l.getD i default ∈ l := by
  intro l
  induction l with
  | nil => intro i h; exact absurd h (Nat.not_lt_zero i)
  | cons v rest ih =>
    intro i h
    cases i with
    | zero => exact List.mem_cons_self _ _
    | succ n => exact List.mem_cons_of_mem _ (ih n (Nat.lt_of_succ_lt_succ h))

theorem inBox_default : inBox default := by decide

theorem inBox_getD (sv : List SupportVector) (i : Nat) (h : boxInv sv) :
    inBox (sv.getD i default) := by
  by_cases hlt : i < sv.length
  · exact h _ (getD_mem_of_lt sv i hlt)
  · have he : sv.getD i default = default := by
      rw [List.getD_eq_get?, List.get?_eq_none.mpr (Nat.le_of_not_lt hlt)]
      rfl
    rw [he]
    exact inBox_default

theorem boxInv_modifySV (sv : List SupportVector) (i : Nat) (f : SupportVector → SupportVector)
    (hf : ∀ v, inBox v → inBox (f v)) (h : boxInv sv) : boxInv (modifySV sv i f) := by
  intro w hw
  rcases mem_modifySV f sv i w hw with h1 | ⟨hlt, heq⟩
  · exact h w h1
  · rw [heq]
    exact hf _ (h _ (getD_mem_of_lt sv i hlt))

theorem updateGrads_box (K : Kern) (v1 v2 : Nat) (step : ℚ) :
    ∀ (l : List Nat) (sv : List SupportVector) (cache : Cache), boxInv sv →
      boxInv (updateGrads K v1 v2 step l sv cache).1 := by
  intro l
  induction l with
  | nil => intro sv cache h; exact h
  | cons j rest ih =>
    intro sv cache h
    simp only [updateGrads]
    exact ih _ _ (boxInv_modifySV _ _ _ (fun v hv => hv) h)

theorem updateGrads_length (K : Kern) (v1 v2 : Nat) (step : ℚ) :
    ∀ (l : List Nat) (sv : List SupportVector) (cache : Cache),
      (updateGrads K v1 v2 step l sv cache).1.length = sv.length := by
  intro l
  induction l with
  | nil => intro sv cache; rfl
  | cons j rest ih =>
    intro sv cache
    simp only [updateGrads]
    rw [ih, modifySV_length]

theorem modifySV_map_index (f : SupportVector → SupportVector)
    (hf : ∀ v, (f v).index = v.index) :
    ∀ (sv : List SupportVector) (i : Nat),
      (modifySV sv i f).map (fun v => v.index) = sv.map (fun v => v.index) := by
  intro sv
  induction sv with
  | nil => intro i; rfl
  | cons v rest ih =>
    intro i
    cases i with
    | zero => simp [modifySV, hf]
    | succ n => simp [modifySV, ih]

theorem updateGrads_map_index (K : Kern) (v1 v2 : Nat) (step : ℚ) :
    ∀ (l : List Nat) (sv : List SupportVector) (cache : Cache),
      (updateGrads K v1 v2 step l sv cache).1.map (fun v => v.index)
        = sv.map (fun v => v.index) := by
  intro l
  induction l with
  | nil => intro sv cache; rfl
  | cons j rest ih =>
    intro sv cache
    simp only [updateGrads]
    rw [ih]
    apply modifySV_map_index
    intro v
    rfl

theorem update_sv_length (K : Kern) (v1 v2 : Nat) (step : ℚ) (st : Optimizer) (cache : Cache) :
    ((update K v1 v2 step st cache).1).sv.length = st.sv.length := by
  unfold update
  dsimp only
  rw [findMinMaxGradient_sv]
  dsimp only
  rw [updateGrads_length, modifySV_length, modifySV_length]

theorem update_sv_map_index (K : Kern) (v1 v2 : Nat) (step : ℚ) (st : Optimizer)
    (cache : Cache) :
    ((update K v1 v2 step st cache).1).sv.map (fun v => v.index)
      = st.sv.map (fun v => v.index) := by
  unfold update
  dsimp only
  rw [findMinMaxGradient_sv]
  dsimp only
  rw [updateGrads_map_index]
  trans (List.map (fun v => v.index)
    (modifySV st.sv v1 (fun v => { v with alpha := v.alpha - step })))
  · apply modifySV_map_index
    intro v
    rfl
  · apply modifySV_map_index
    intro v
    rfl

theorem update_box (K : Kern) (v1 v2 : Nat) (step : ℚ) (st : Optimizer) (cache : Cache)
    (h : boxInv st.sv)
    (h1 : (st.sv.getD v1 default).cmin ≤ (st.sv.getD v1 default).alpha - step)
    (h2 : (st.sv.getD v1 default).alpha - step ≤ (st.sv.getD v1 default).cmax)
    (h3 : (st.sv.getD v2 default).cmin ≤ (st.sv.getD v2 default).alpha + step)
    (h4 : (st.sv.getD v2 default).alpha + step ≤ (st.sv.getD v2 default).cmax) :
    boxInv ((update K v1 v2 step st cache).1).sv := by
  unfold update
  dsimp only
  rw [findMinMaxGradient_sv]
  dsimp only
  apply updateGrads_box
  intro w hw
  rcases mem_modifySV _ _ _ w hw with hw1 | ⟨hlt2, heq2⟩
  · rcases mem_modifySV _ _ _ w hw1 with hw0 | ⟨hlt1, heq1⟩
    · exact h w hw0
    · rw [heq1]
      exact ⟨h1, h2⟩
  · by_cases hvv : v2 = v1
    · subst hvv
      have hlt : v2 < st.sv.length := by
        rw [modifySV_length] at hlt2
        exact hlt2
      rw [heq2, modifySV_getD_self _ _ _ hlt]
      have hbox := h _ (getD_mem_of_lt st.sv v2 hlt)
      have e : (st.sv.getD v2 default).alpha - step + step = (st.sv.getD v2 default).alpha := by
        ring
      constructor
      · show (st.sv.getD v2 default).cmin ≤ (st.sv.getD v2 default).alpha - step + step
        rw [e]
        exact hbox.1
      · show (st.sv.getD v2 default).alpha - step + step ≤ (st.sv.getD v2 default).cmax
        rw [e]
        exact hbox.2
    · rw [heq2, modifySV_getD_ne _ _ _ _ hvv]
      exact ⟨h3, h4⟩

theorem clampStep_spec (sv1 sv2 : SupportVector) (s : ℚ)
    (h1 : inBox sv1) (h2 : inBox sv2) :
    sv1.cmin ≤ sv1.alpha - clampStep sv1 sv2 s ∧
    sv1.alpha - clampStep sv1 sv2 s ≤ sv1.cmax ∧
    sv2.cmin ≤ sv2.alpha + clampStep sv1 sv2 s ∧
    sv2.alpha + clampStep sv1 sv2 s ≤ sv2.cmax := by
  obtain ⟨h1a, h1b⟩ := h1
  obtain ⟨h2a, h2b⟩ := h2
  unfold clampStep
  dsimp only
  split_ifs <;> exact ⟨by linarith, by linarith, by linarith, by linarith⟩

theorem smoStepPair_box (K : Kern) (tol : ℚ) (i1 i2 : Nat) (kv : Option ℚ)
    (st : Optimizer) (cache : Cache) (h : boxInv st.sv) :
    boxInv ((smoStepPair K tol i1 i2 kv st cache).1.1).sv := by
  unfold smoStepPair
  dsimp only
  refine update_box K i1 i2 _ st cache h ?_ ?_ ?_ ?_
  · exact (clampStep_spec _ _ _ (inBox_getD st.sv i1 h) (inBox_getD st.sv i2 h)).1
  · exact (clampStep_spec _ _ _ (inBox_getD st.sv i1 h) (inBox_getD st.sv i2 h)).2.1
  · exact (clampStep_spec _ _ _ (inBox_getD st.sv i1 h) (inBox_getD st.sv i2 h)).2.2.1
  · exact (clampStep_spec _ _ _ (inBox_getD st.sv i1 h) (inBox_getD st.sv i2 h)).2.2.2

/-- Box invariant preservation through one smo step: if every active
vector is inside its box before the step, then after smo clamps the step
and applies update every active vector is still inside its box. -/
theorem smo_preserves_box (K : Kern) (idx1 idx2 : Option Nat) (tol : ℚ)
    (st : Optimizer) (cache : Cache) (h : boxInv st.sv) :
    boxInv ((smo K idx1 idx2 tol st cache).1.1).sv := by
  have hfmm : boxInv (findMinMaxGradient st).sv := by
    rw [findMinMaxGradient_sv]
    exact h
  cases idx1 with
  | some i1 =>
    cases idx2 with
    | some i2 =>
      exact smoStepPair_box K tol i1 i2 none st cache h
    | none =>
      unfold smo
      dsimp only
      rcases hr : (searchPartner2 K st cache i1).1 with _ | p
      · simp only [hr]
        exact h
      · simp only [hr]
        exact smoStepPair_box K tol i1 p.1 (some p.2) st _ h
  | none =>
    cases idx2 with
    | some i2 =>
      unfold smo
      dsimp only
      rcases hr : (searchPartner1 K st cache i2).1 with _ | p
      · simp only [hr]
        exact h
      · simp only [hr]
        exact smoStepPair_box K tol p.1 i2 (some p.2) st _ h
    | none =>
      unfold smo
      dsimp only
      by_cases hg : (findMinMaxGradient st).gmax > -(findMinMaxGradient st).gmin
      · rw [if_pos hg]
        dsimp only
        rcases hr : (searchPartner1 K (findMinMaxGradient st) cache
            (findMinMaxGradient st).svmax).1 with _ | p
        · simp only [hr]
          exact hfmm
        · simp only [hr]
          exact smoStepPair_box K tol p.1 _ (some p.2) _ _ hfmm
      · rw [if_neg hg]
        dsimp only
        rcases hr : (searchPartner2 K (findMinMaxGradient st) cache
            (findMinMaxGradient st).svmin).1 with _ | p
        · simp only [hr]
          exact hfmm
        · simp only [hr]
          exact smoStepPair_box K tol _ p.1 (some p.2) _ _ hfmm

theorem smoStepPair_sv_map_index (K : Kern) (tol : ℚ) (i1 i2 : Nat) (kv : Option ℚ)
    (st : Optimizer) (cache : Cache) :
    ((smoStepPair K tol i1 i2 kv st cache).1.1).sv.map (fun v => v.index)
      = st.sv.map (fun v => v.index) := by
  unfold smoStepPair
  dsimp only
  exact update_sv_map_index K i1 i2 _ st cache

theorem smo_sv_map_index (K : Kern) (idx1 idx2 : Option Nat) (tol : ℚ)
    (st : Optimizer) (cache : Cache) :
    ((smo K idx1 idx2 tol st cache).1.1).sv.map (fun v => v.index)
      = st.sv.map (fun v => v.index) := by
  have hfmm : (findMinMaxGradient st).sv.map (fun v => v.index)
      = st.sv.map (fun v => v.index) := by
    rw [findMinMaxGradient_sv]
  cases idx1 with
  | some i1 =>
    cases idx2 with
    | some i2 =>
      exact smoStepPair_sv_map_index K tol i1 i2 none st cache
    | none =>
      unfold smo
      dsimp only
      rcases hr : (searchPartner2 K st cache i1).1 with _ | p
      · simp only [hr]
      · simp only [hr]
        exact smoStepPair_sv_map_index K tol i1 p.1 (some p.2) st _
  | none =>
    cases idx2 with
    | some i2 =>
      unfold smo
      dsimp only
      rcases hr : (searchPartner1 K st cache i2).1 with _ | p
      · simp only [hr]
      · simp only [hr]
        exact smoStepPair_sv_map_index K tol p.1 i2 (some p.2) st _
    | none =>
      unfold smo
      dsimp only
      by_cases hg : (findMinMaxGradient st).gmax > -(findMinMaxGradient st).gmin
      · rw [if_pos hg]
        dsimp only
        rcases hr : (searchPartner1 K (findMinMaxGradient st) cache
            (findMinMaxGradient st).svmax).1 with _ | p
        · simp only [hr]
          exact hfmm
        · simp only [hr]
          rw [smoStepPair_sv_map_index]
          exact hfmm
      · rw [if_neg hg]
        dsimp only
        rcases hr : (searchPartner2 K (findMinMaxGradient st) cache
            (findMinMaxGradient st).svmin).1 with _ | p
        · simp only [hr]
          exact hfmm
        · simp only [hr]
          rw [smoStepPair_sv_map_index]
          exact hfmm

theorem smo_sv_length (K : Kern) (idx1 idx2 : Option Nat) (tol : ℚ)
    (st : Optimizer) (cache : Cache) :
    ((smo K idx1 idx2 tol st cache).1.1).sv.length = st.sv.length := by
  have h := congrArg List.length (smo_sv_map_index K idx1 idx2 tol st cache)
  simpa using h

theorem smo_fixed1_no_partner (K : Kern) (tol : ℚ) (st : Optimizer) (cache : Cache) (i1 : Nat)
    (h : (searchPartner2 K st cache i1).1 = none) :
    smo K (some i1) none tol st cache = ((st, (searchPartner2 K st cache i1).2), false) := by
  unfold smo
  dsimp only
  rw [h]

theorem smo_none2_no_partner (K : Kern) (tol : ℚ) (st : Optimizer) (cache : Cache)
    (hflag : st.recalculate_minmax_grad = false)
    (hside : ¬ st.gmax > -st.gmin)
    (h : (searchPartner2 K st cache st.svmin).1 = none) :
    smo K none none tol st cache = ((st, (searchPartner2 K st cache st.svmin).2), false) := by
  unfold smo
  rw [findMinMaxGradient_flag_false st hflag]
  dsimp only
  rw [if_neg hside]
  dsimp only
  rw [h]

theorem smo_none1_no_partner (K : Kern) (tol : ℚ) (st : Optimizer) (cache : Cache)
    (hflag : st.recalculate_minmax_grad = false)
    (hside : st.gmax > -st.gmin)
    (h : (searchPartner1 K st cache st.svmax).1 = none) :
    smo K none none tol st cache = ((st, (searchPartner1 K st cache st.svmax).2), false) := by
  unfold smo
  rw [findMinMaxGradient_flag_false st hflag]
  dsimp only
  rw [if_pos hside]
  dsimp only
  rw [h]

theorem find?_filter_ne (k k' : Nat × Nat) (h : k' ≠ k) :
    ∀ (data : List ((Nat × Nat) × ℚ)),
      (data.filter (fun p => !(p.1 == k))).find? (fun p => p.1 == k')
        = data.find? (fun p => p.1 == k') := by
  intro data
  induction data with
  | nil => rfl
  | cons q t ih =>
    rw [List.filter_cons]
    by_cases hq : q.1 = k'
    · have hkq : ¬ q.1 = k := by
        rw [hq]
        exact h
      have hb : (!(q.1 == k)) = true := by simp [hkq]
      rw [hb, if_pos rfl]
      rw [List.find?_cons_of_pos _ (by simp [hq]), List.find?_cons_of_pos _ (by simp [hq])]
    · by_cases hk : q.1 = k
      · have hb : (!(q.1 == k)) = false := by simp [hk]
        rw [hb]
        simp only [Bool.false_eq_true, if_false]
        rw [ih, List.find?_cons_of_neg _ (by simp [hq])]
      · have hb : (!(q.1 == k)) = true := by simp [hk]
        rw [hb, if_pos rfl]
        rw [List.find?_cons_of_neg _ (by simp [hq]), List.find?_cons_of_neg _ (by simp [hq])]
        exact ih

theorem cache_find_insert_ne (c : Cache) (k k' : Nat × Nat) (val : ℚ) (h : k' ≠ k) :
    (c.insert k val).find k' = c.find k' := by
  obtain ⟨data⟩ := c
  unfold Cache.insert Cache.find
  dsimp only
  rw [List.find?_cons_of_neg _ (by simp [Ne.symm h]), find?_filter_ne k k' h data]

theorem cacheGet_mono (K : Kern) (c : Cache) (i j : SupportVector) (k' : Nat × Nat) (v : ℚ)
    (h : c.find k' = some v) : ((Cache.get K c i j).2).find k' = some v := by
  unfold Cache.get
  rcases hf : c.find (i.index, j.index) with _ | w
  · dsimp only
    by_cases hk : k' = (i.index, j.index)
    · rw [hk] at h
      rw [h] at hf
      simp at hf
    · rw [cache_find_insert_ne _ _ _ _ hk]
      exact h
  · dsimp only
    exact h

theorem searchStep2_cache_mono (K : Kern) (sv1 : SupportVector) (tau : ℚ) (acc : SearchAcc)
    (iv : Nat × SupportVector) (k' : Nat × Nat) (v : ℚ)
    (h : acc.cache.find k' = some v) :
    ((searchStep2 K sv1 tau acc iv).cache).find k' = some v := by
  unfold searchStep2
  dsimp only
  split_ifs <;> exact cacheGet_mono K acc.cache sv1 iv.2 k' v h

theorem foldl_searchStep2_cache_mono (K : Kern) (sv1 : SupportVector) (tau : ℚ)
    (k' : Nat × Nat) (v : ℚ) :
    ∀ (l : List (Nat × SupportVector)) (acc : SearchAcc), acc.cache.find k' = some v →
      ((l.foldl (searchStep2 K sv1 tau) acc).cache).find k' = some v := by
  intro l
  induction l with
  | nil => intro acc h; exact h
  | cons iv rest ih =>
    intro acc h
    rw [List.foldl_cons]
    exact ih _ (searchStep2_cache_mono K sv1 tau acc iv k' v h)

theorem searchPartner2_cache_mono (K : Kern) (st : Optimizer) (cache : Cache) (i1 : Nat)
    (k' : Nat × Nat) (v : ℚ) (h : cache.find k' = some v) :
    ((searchPartner2 K st cache i1).2).find k' = some v := by
  unfold searchPartner2
  dsimp only
  exact foldl_searchStep2_cache_mono K _ st.tau k' v st.sv.enum ⟨0, none, cache⟩ h

/-- When the partner search of smo resolves no second index, smo returns
false and leaves the optimizer state (every alpha and grad, the
extremes, and the recalculate flag) unchanged, provided the extremes are
current when smo has to resolve both indices itself; the cache can only
gain memoized entries (existing bindings are preserved). -/
theorem smo_no_partner_atomic (K : Kern) (tol : ℚ) (st : Optimizer) (cache : Cache) :
    (∀ i1, (searchPartner2 K st cache i1).1 = none →
       smo K (some i1) none tol st cache = ((st, (searchPartner2 K st cache i1).2), false)) ∧
    (st.recalculate_minmax_grad = false → ¬ st.gmax > -st.gmin →
       (searchPartner2 K st cache st.svmin).1 = none →
       smo K none none tol st cache = ((st, (searchPartner2 K st cache st.svmin).2), false)) ∧
    (∀ i1 k' v, cache.find k' = some v →
       ((searchPartner2 K st cache i1).2).find k' = some v) :=
  ⟨fun i1 h => smo_fixed1_no_partner K tol st cache i1 h,
   fun hf hs h => smo_none2_no_partner K tol st cache hf hs h,
   fun i1 k' v h => searchPartner2_cache_mono K st cache i1 k' v h⟩

set_option maxRecDepth 1000000 in
theorem smo_no_partner_atomic_witness :
    (searchPartner2 linearKernel stEmptyO cache0 0).1 = none ∧
    smo linearKernel (some 0) none (1 / 5) stEmptyO cache0
      = ((stEmptyO, (searchPartner2 linearKernel stEmptyO cache0 0).2), false) :=
  ⟨by with_unfolding_all decide,
   (smo_no_partner_atomic linearKernel (1 / 5) stEmptyO cache0).1 0
     (by with_unfolding_all decide)⟩

set_option maxRecDepth 1000000 in
/-- On a dirty state, the fully unspecified smo call whose partner
search fails still clears the recalculate flag and overwrites the stored
extremes, contradicting the claim that they are left unchanged. -/
theorem smo_no_partner_dirty_cex :
    (smo linearKernel none none (1 / 5) stDirty cache0).2 = false ∧
    stDirty.recalculate_minmax_grad = true ∧
    ((smo linearKernel none none (1 / 5) stDirty cache0).1.1).recalculate_minmax_grad = false ∧
    ((smo linearKernel none none (1 / 5) stDirty cache0).1.1).gmin ≠ stDirty.gmin := by
  with_unfolding_all decide

/-- When the extremes are current with gap at most tol and the smo pair
search resolves no pair, reprocess reports false and every surviving
active vector is one of the original vectors, unchanged. -/
theorem reprocess_no_pair_keeps_alphas (K : Kern) (tol : ℚ) (st : Optimizer) (cache : Cache)
    (hflag : st.recalculate_minmax_grad = false)
    (hgap : st.gmax - st.gmin ≤ tol)
    (hsearch : (if st.gmax > -st.gmin then (searchPartner1 K st cache st.svmax).1
                else (searchPartner2 K st cache st.svmin).1) = none) :
    (reprocess K tol st cache).2 = false ∧
    ∀ v ∈ (reprocess K tol st cache).1.1.sv, v ∈ st.sv := by
  by_cases hg : st.gmax > -st.gmin
  · rw [if_pos hg] at hsearch
    have hs := smo_none1_no_partner K tol st cache hflag hg hsearch
    unfold reprocess
    rw [hs]
    dsimp only
    unfold clean
    rw [findMinMaxGradient_flag_false st hflag]
    dsimp only
    refine ⟨rfl, ?_⟩
    intro v hv
    exact (List.mem_filter.mp hv).1
  · rw [if_neg hg] at hsearch
    have hs := smo_none2_no_partner K tol st cache hflag hg hsearch
    unfold reprocess
    rw [hs]
    dsimp only
    unfold clean
    rw [findMinMaxGradient_flag_false st hflag]
    dsimp only
    refine ⟨rfl, ?_⟩
    intro v hv
    exact (List.mem_filter.mp hv).1

set_option maxRecDepth 1000000 in
theorem reprocess_no_pair_keeps_alphas_witness :
    stEmptyO.recalculate_minmax_grad = false ∧
    stEmptyO.gmax - stEmptyO.gmin ≤ (1 / 5 : ℚ) ∧
    (if stEmptyO.gmax > -stEmptyO.gmin
       then (searchPartner1 linearKernel stEmptyO cache0 stEmptyO.svmax).1
       else (searchPartner2 linearKernel stEmptyO cache0 stEmptyO.svmin).1) = none ∧
    ((reprocess linearKernel (1 / 5) stEmptyO cache0).2 = false ∧
     ∀ v ∈ (reprocess linearKernel (1 / 5) stEmptyO cache0).1.1.sv, v ∈ stEmptyO.sv) :=
  ⟨rfl, by with_unfolding_all decide, by with_unfolding_all decide,
   reprocess_no_pair_keeps_alphas linearKernel (1 / 5) stEmptyO cache0 rfl
     (by with_unfolding_all decide) (by with_unfolding_all decide)⟩

set_option maxRecDepth 1000000 in
/-- At a converged state (extremes current, gap 1/20 at most tol 1/5),
reprocess still changes alphas and writes to the cache: smo performs an
unconditional pair update whenever a feasible positive-gain pair
exists. -/
theorem reprocess_converged_changes_alpha_cex :
    stConv.gmax - stConv.gmin ≤ stConv.params.tol ∧
    stConv.recalculate_minmax_grad = false ∧
    (reprocess linearKernel stConv.params.tol stConv cache0).1.1.sv.map (fun v => v.alpha)
      ≠ stConv.sv.map (fun v => v.alpha) ∧
    (reprocess linearKernel stConv.params.tol stConv cache0).1.2 ≠ cache0 := by
  with_unfolding_all decide

theorem finishLoop_bound (K : Kern) (tol : ℚ) :
    ∀ (fuel : Nat) (st : Optimizer) (cache : Cache),
      (finishLoop K tol fuel st cache).2.1 ≤ fuel ∧
      ((finishLoop K tol fuel st cache).2.2 = false ∨
       (finishLoop K tol fuel st cache).2.1 = fuel) := by
  intro fuel
  induction fuel with
  | zero =>
    intro st cache
    rw [finishLoop]
    cases hb : (smo K none none tol st cache).2
    · simp [hb]
    · simp [hb]
  | succ f ih =>
    intro st cache
    rw [finishLoop]
    cases hb : (smo K none none tol st cache).2
    · simp [hb]
    · simp only [hb, if_true]
      constructor
      · exact Nat.succ_le_succ (ih _ _).1
      · rcases (ih _ _).2 with h | h
        · left
          exact h
        · right
          rw [h]

set_option maxRecDepth 1000000 in
/-- finish is not the iterated-reprocess drain the claim describes: at
stFin the source's finish (smo loop with a single trailing clean)
retains the vector of index 3, while repeating reprocess (smo followed
by clean on every iteration) evicts it mid-loop, so the two produce
different final active sets. -/
theorem finish_not_iterated_reprocess_cex :
    (finish linearKernel stFin cache0).1.sv.map (fun v => v.index)
      ≠ (finishSpec linearKernel stFin cache0).1.sv.map (fun v => v.index) := by
  with_unfolding_all decide

/-- finish drains with the smo report as loop condition, capped by the
active-set size at entry: the loop body runs at most that many times,
and it runs fewer times only when the report has turned false; a single
clean follows the loop. -/
theorem finish_caps_iterations (K : Kern) (st : Optimizer) (cache : Cache) :
    finish K st cache
      = clean (finishLoop K st.params.tol st.sv.length st cache).1.1
          (finishLoop K st.params.tol st.sv.length st cache).1.2 ∧
    (finishLoop K st.params.tol st.sv.length st cache).2.1 ≤ st.sv.length ∧
    ((finishLoop K st.params.tol st.sv.length st cache).2.2 = false ∨
     (finishLoop K st.params.tol st.sv.length st cache).2.1 = st.sv.length) :=
  ⟨rfl, (finishLoop_bound K st.params.tol st.sv.length st cache).1,
   (finishLoop_bound K st.params.tol st.sv.length st cache).2⟩

theorem smo_preserves_box_witness :
    boxInv stConv.sv ∧ boxInv ((smo linearKernel none none (1 / 5) stConv cache0).1.1).sv :=
  ⟨by decide, smo_preserves_box linearKernel none none (1 / 5) stConv cache0 (by decide)⟩

/-- The admission gate of process: a sample whose index is not yet
active is rejected without insertion exactly when the recomputed
extremes are well-ordered and the candidate gradient falls on the
hopeless side for its label; otherwise it is inserted at the front and
one directed smo update is attempted, the new vector in the second slot
for a positive label and the first slot for a negative one. -/
theorem process_admission_gate (K : Kern) (i : Nat) (x : List ℚ) (y : ℚ)
    (st : Optimizer) (cache : Cache)
    (hdup : st.sv.any (fun v => v.index == i) = false) :
    (gateRejects K x y st →
       process K i x y st cache = ((findMinMaxGradient st, cache), false)) ∧
    (¬ gateRejects K x y st →
       (process K i x y st cache).2 = true ∧
       (process K i x y st cache).1.1.sv.length = st.sv.length + 1 ∧
       (∃ v ∈ (process K i x y st cache).1.1.sv, v.index = i) ∧
       process K i x y st cache =
         ((if y > 0 then
             smo K none (some 0) 0 (admitState K i x y st)
               (insertAll cache (processCacheValues K st.sv i x))
           else
             smo K (some 0) none 0 (admitState K i x y st)
               (insertAll cache (processCacheValues K st.sv i x))).1, true)) := by
  constructor
  · intro hgate
    unfold process
    rw [hdup]
    simp only [Bool.false_eq_true, if_false]
    rw [if_pos hgate]
  · intro hgate
    have hproc : process K i x y st cache =
        ((if y > 0 then
            smo K none (some 0) 0 (admitState K i x y st)
              (insertAll cache (processCacheValues K st.sv i x))
          else
            smo K (some 0) none 0 (admitState K i x y st)
              (insertAll cache (processCacheValues K st.sv i x))).1, true) := by
      unfold process
      rw [hdup]
      simp only [Bool.false_eq_true, if_false]
      rw [if_neg hgate]
    have hlen : (process K i x y st cache).1.1.sv.length = st.sv.length + 1 := by
      rw [hproc]
      dsimp only
      by_cases hy : y > 0
      · rw [if_pos hy, smo_sv_length]
        unfold admitState
        dsimp only
        rw [List.length_cons, findMinMaxGradient_sv]
      · rw [if_neg hy, smo_sv_length]
        unfold admitState
        dsimp only
        rw [List.length_cons, findMinMaxGradient_sv]
    have hmem : ∃ v ∈ (process K i x y st cache).1.1.sv, v.index = i := by
      have hidx : i ∈ (process K i x y st cache).1.1.sv.map (fun v => v.index) := by
        rw [hproc]
        dsimp only
        by_cases hy : y > 0
        · rw [if_pos hy, smo_sv_map_index]
          unfold admitState
          dsimp only
          rw [List.map_cons]
          exact List.mem_cons_self _ _
        · rw [if_neg hy, smo_sv_map_index]
          unfold admitState
          dsimp only
          rw [List.map_cons]
          exact List.mem_cons_self _ _
      rcases List.mem_map.mp hidx with ⟨v, hv, hvi⟩
      exact ⟨v, hv, hvi⟩
    exact ⟨by rw [hproc], hlen, hmem, hproc⟩

theorem process_admission_gate_witness :
    stEmptyO.sv.any (fun v => v.index == 0) = false ∧
    ((gateRejects linearKernel [1] 1 stEmptyO →
        process linearKernel 0 [1] 1 stEmptyO cache0
          = ((findMinMaxGradient stEmptyO, cache0), false)) ∧
     (¬ gateRejects linearKernel [1] 1 stEmptyO →
        (process linearKernel 0 [1] 1 stEmptyO cache0).2 = true ∧
        (process linearKernel 0 [1] 1 stEmptyO cache0).1.1.sv.length
          = stEmptyO.sv.length + 1 ∧
        (∃ v ∈ (process linearKernel 0 [1] 1 stEmptyO cache0).1.1.sv, v.index = 0) ∧
        process linearKernel 0 [1] 1 stEmptyO cache0 =
          ((if (1 : ℚ) > 0 then
              smo linearKernel none (some 0) 0 (admitState linearKernel 0 [1] 1 stEmptyO)
                (insertAll cache0 (processCacheValues linearKernel stEmptyO.sv 0 [1]))
            else
              smo linearKernel (some 0) none 0 (admitState linearKernel 0 [1] 1 stEmptyO)
                (insertAll cache0 (processCacheValues linearKernel stEmptyO.sv 0 [1]))).1,
           true))) :=
  ⟨rfl, process_admission_gate linearKernel 0 [1] 1 stEmptyO cache0 rfl⟩

theorem predict_for_row_sign_witness :
    mdl1.w.length = mdl1.instances.length ∧
    ((predictForRow linearKernel mdl1 [1] =
        if decisionF linearKernel mdl1 [1] > 0 then 1 else -1) ∧
     (decisionF linearKernel mdl1 [1] = 0 → predictForRow linearKernel mdl1 [1] = -1)) :=
  ⟨rfl, predict_for_row_sign linearKernel mdl1 [1] rfl⟩

end SvcSpec
